import Mathlib

/-!
Verification of the donut renderer (donut.go).

The program renders a rotating torus as ASCII art.  Its numeric core works on
float64 values; we model those values with real numbers, and the per-frame
rasterization state (z-buffer, character buffer, loop state) with explicit
computable structures.  Definitions are transcribed from src/donut.go.
-/

namespace Donut

/-! ## Real-valued sample computations (donut.go lines 83-111) -/

/-- The perspective denominator of donut.go line 100:
sinPhi*h*sinA + sinTheta*cosA + 5, with h = cosTheta + 2 (line 95). -/
noncomputable def denom (A θ φ : ℝ) : ℝ :=
  Real.sin φ * (Real.cos θ + 2) * Real.sin A + Real.sin θ * Real.cos A + 5

/-- The inverse-depth value D of donut.go line 100: D = 1 / denom. -/
noncomputable def Dval (A θ φ : ℝ) : ℝ := 1 / denom A θ φ

/-- The real-valued luminance expression of donut.go lines 110-111, before
conversion to int: 8 * ((sinTheta*sinA - sinPhi*cosTheta*cosA)*cosB
- sinPhi*cosTheta*sinA - sinTheta*cosA - cosPhi*cosTheta*sinB). -/
noncomputable def lumExpr (A B θ φ : ℝ) : ℝ :=
  8 * ((Real.sin θ * Real.sin A - Real.sin φ * Real.cos θ * Real.cos A) * Real.cos B -
    Real.sin φ * Real.cos θ * Real.sin A - Real.sin θ * Real.cos A -
    Real.cos φ * Real.cos θ * Real.sin B)

/-- Go conversion from float64 to int (spec of the Go language: the fraction
is discarded, truncation toward zero). -/
noncomputable def truncToZero (x : ℝ) : ℤ :=
  if 0 ≤ x then ⌊x⌋ else -⌊-x⌋

/-- The luminance integer N of donut.go lines 110-111:
N := int(8 * (...)), Go int conversion applied to the luminance expression. -/
noncomputable def Nval (A B θ φ : ℝ) : ℤ := truncToZero (lumExpr A B θ φ)

/-! ## Animation-loop state (donut.go lines 69, 71, 144-145) -/

/-- The state the animation loop threads between frames: the rotation angles
A, B (line 69) and the color index (line 71).  The float increments 0.07 and
0.03 are modelled exactly as rationals. -/
structure LoopState where
  A : ℚ
  B : ℚ
  colorIdx : ℕ
deriving DecidableEq

/-- The initial loop state: A, B := 0.0, 0.0 (line 69), colorIndex := 0
(line 71). -/
def initState : LoopState := ⟨0, 0, 0⟩

/-- One pass of the animation loop, as far as the loop state is concerned:
A += 0.07, B += 0.03 (lines 144-145).  No statement of the loop body touches
colorIndex, so it is carried unchanged. -/
def loopStep (s : LoopState) : LoopState :=
  ⟨s.A + 7/100, s.B + 3/100, s.colorIdx⟩

/-- The loop state after k frames. -/
def loopIter : ℕ → LoopState
  | 0 => initState
  | k + 1 => loopStep (loopIter k)

/-- The ANSI color escape sequences of donut.go lines 47-54
(octal 033 is the escape byte 0x1b). -/
def colors : List String :=
  ["\x1b[31m", "\x1b[33m", "\x1b[32m", "\x1b[36m", "\x1b[34m", "\x1b[35m"]

/-! ## Rasterization layer (donut.go lines 59-64, 76-79, 114-125)

The z-buffer holds float64 values; within one frame it only ever stores 0 or
one of the computed D values, and the depth test only compares these, so we
model the stored depths with rationals (any linearly ordered field would do).
The buffers are Go slices of length screenWidth*screenHeight = 800. -/

/-- The luminance palette of donut.go line 64, darkest to brightest. -/
def luminanceChars : List Char := ".,-~:;=!*#$@".toList

/-- The glyph chosen for a luminance integer N, donut.go lines 119-123:
if N > 0 the glyph is luminanceChars[N%12] (Go % on int is the
truncated-division remainder, Int.tmod), else luminanceChars[0]. -/
def glyphFor (N : ℤ) : Char :=
  if 0 < N then luminanceChars.getD (N.tmod 12).toNat ' '
  else luminanceChars.getD 0 ' '

/-- One surface sample as it reaches the rasterization step: the truncated
screen coordinates x, y (Go ints), the inverse depth D and the luminance
integer N. -/
structure Sample where
  x : ℤ
  y : ℤ
  D : ℚ
  N : ℤ
deriving DecidableEq

/-- The two per-frame buffers of donut.go lines 59-60: the z-buffer and the
character buffer. -/
structure Buffers where
  z : List ℚ
  outBuf : List Char
deriving DecidableEq

/-- Screen width, donut.go line 39. -/
def screenWidth : ℤ := 40

/-- Screen height, donut.go line 40. -/
def screenHeight : ℤ := 20

/-- The frame-start reset of donut.go lines 76-79: one pass sets every
character cell to a blank and every z-buffer cell to 0. -/
def resetBuffers (b : Buffers) : Buffers :=
  ⟨b.z.map (fun _ => (0:ℚ)), b.outBuf.map (fun _ => ' ')⟩

/-- The linear buffer position of a sample, donut.go line 114:
pos := x + screenWidth*y (as a list index once in bounds). -/
def posOf (s : Sample) : ℕ := (s.x + screenWidth * s.y).toNat

/-- The bounds check of donut.go line 115:
y >= 0 && y < screenHeight && x >= 0 && x < screenWidth. -/
def inBounds (s : Sample) : Prop :=
  0 ≤ s.y ∧ s.y < screenHeight ∧ 0 ≤ s.x ∧ s.x < screenWidth

instance (s : Sample) : Decidable (inBounds s) := by
  unfold inBounds
  infer_instance

/-- The rasterization of one sample, donut.go lines 114-125: if the sample is
in bounds and its D strictly exceeds the z-buffer value at pos, both buffers
are updated at pos; otherwise nothing happens. -/
def plotStep (b : Buffers) (s : Sample) : Buffers :=
  if inBounds s then
    if b.z.getD (posOf s) 0 < s.D then
      ⟨b.z.set (posOf s) s.D, b.outBuf.set (posOf s) (glyphFor s.N)⟩
    else b
  else b

/-- One frame of rendering, donut.go lines 76-127: reset both buffers, then
rasterize the swept samples in order. -/
def frameRender (b : Buffers) (samples : List Sample) : Buffers :=
  samples.foldl plotStep (resetBuffers b)

/-- The buffers exactly as they stand at the start of every frame: all depths
0, all glyphs blank, 40*20 = 800 cells each. -/
def freshBuffers : Buffers :=
  ⟨List.replicate 800 0, List.replicate 800 ' '⟩

/-! ## Helper lemmas shared by the rasterization claims -/

/-- An in-bounds sample's linear position fits in the 800-cell buffers. -/
theorem posOf_lt_of_inBounds (s : Sample) (h : inBounds s) : posOf s < 800 := by
  obtain ⟨hy0, hyH, hx0, hxW⟩ := h
  simp only [screenHeight, screenWidth] at hyH hxW
  simp only [posOf, screenWidth]
  omega

/-- The fresh z-buffer reads 0 at every position. -/
theorem getD_freshZ (p : ℕ) : freshBuffers.z.getD p 0 = 0 := by
  show (List.replicate 800 (0:ℚ)).getD p 0 = 0
  rw [List.getD_eq_getElem?_getD, List.getElem?_replicate]
  by_cases h : p < 800
  · rw [if_pos h]
    rfl
  · rw [if_neg h]
    rfl

/-- When the depth test passes for an in-bounds sample, both buffers are
written at its position. -/
theorem plotStep_writes (b : Buffers) (s : Sample) (hin : inBounds s)
    (hlt : b.z.getD (posOf s) 0 < s.D) :
    plotStep b s =
      ⟨b.z.set (posOf s) s.D, b.outBuf.set (posOf s) (glyphFor s.N)⟩ := by
  rw [plotStep, if_pos hin, if_pos hlt]

/-- When the depth test fails, the buffers are unchanged. -/
theorem plotStep_skips (b : Buffers) (s : Sample)
    (hle : ¬ b.z.getD (posOf s) 0 < s.D) : plotStep b s = b := by
  by_cases h : inBounds s
  · rw [plotStep, if_pos h, if_neg hle]
  · rw [plotStep, if_neg h]

/-- Reading back the cell a set just wrote. -/
theorem getD_set_self {α : Type} (l : List α) (p : ℕ) (v d : α)
    (hp : p < l.length) : (l.set p v).getD p d = v := by
  rw [List.getD_eq_getElem?_getD, List.getElem?_set_self hp]
  rfl

/-- Claim C3: for a luminance integer N the written glyph is
luminanceChars[N mod 12] (mathematical modulus, always in [0, 12)) when
N > 0, and luminanceChars[0] = the dot when N ≤ 0; a negative N never
reaches the modulus. -/
theorem glyph_luminance_mapping (N : ℤ) :
    (0 < N → glyphFor N = luminanceChars.getD (N % 12).toNat ' ' ∧
      0 ≤ N % 12 ∧ N % 12 < 12) ∧
    (N ≤ 0 → glyphFor N = '.') := by
  constructor
  · intro hN
    have htmod : N.tmod 12 = N % 12 :=
      Int.tmod_eq_emod (le_of_lt hN) (by norm_num)
    refine ⟨?_, Int.emod_nonneg N (by norm_num), ?_⟩
    · rw [glyphFor, if_pos hN, htmod]
    · exact Int.emod_lt_of_pos N (by norm_num)
  · intro hN
    rw [glyphFor, if_neg (by omega)]
    rfl

/-- Concrete witness for claim C3 at N = 23: 23 mod 12 = 11 selects the
brightest glyph. -/
theorem glyph_luminance_mapping_witness :
    ((0:ℤ) < 23 ∧ glyphFor 23 = luminanceChars.getD ((23:ℤ) % 12).toNat ' ') ∧
    ((-10:ℤ) ≤ 0 ∧ glyphFor (-10) = '.') :=
  ⟨⟨by norm_num, ((glyph_luminance_mapping 23).1 (by norm_num)).1⟩,
   ⟨by norm_num, (glyph_luminance_mapping (-10)).2 (by norm_num)⟩⟩

/-- Claim C2: a cell is overwritten only when the incoming depth strictly
exceeds the stored depth (equal or smaller depth keeps glyph and depth), and
for two samples hitting the same in-bounds cell in a fresh frame, the final
glyph is that of the larger-D sample in either processing order. -/
theorem depth_test_nearest_wins (s1 s2 : Sample) (b : Buffers)
    (hx : s2.x = s1.x) (hy : s2.y = s1.y) (hin : inBounds s1)
    (hD : s2.D < s1.D) (hpos : 0 < s1.D) :
    (s1.D ≤ b.z.getD (posOf s1) 0 → plotStep b s1 = b) ∧
    (plotStep (plotStep freshBuffers s1) s2).outBuf.getD (posOf s1) ' ' =
      glyphFor s1.N ∧
    (plotStep (plotStep freshBuffers s2) s1).outBuf.getD (posOf s1) ' ' =
      glyphFor s1.N := by
  have hpp : posOf s2 = posOf s1 := by
    unfold posOf
    rw [hx, hy]
  have hin2 : inBounds s2 := by
    unfold inBounds at hin ⊢
    rw [hx, hy]
    exact hin
  have hplt : posOf s1 < 800 := posOf_lt_of_inBounds s1 hin
  have hzlen : freshBuffers.z.length = 800 := List.length_replicate 800 0
  have holen : freshBuffers.outBuf.length = 800 := List.length_replicate 800 ' '
  refine ⟨fun hle => plotStep_skips b s1 (not_lt.mpr hle), ?_, ?_⟩
  · have h1 := plotStep_writes freshBuffers s1 hin (by rw [getD_freshZ]; exact hpos)
    have h2 : plotStep (plotStep freshBuffers s1) s2 = plotStep freshBuffers s1 := by
      apply plotStep_skips
      rw [h1]
      show ¬ (freshBuffers.z.set (posOf s1) s1.D).getD (posOf s2) 0 < s2.D
      rw [hpp, getD_set_self _ _ _ _ (by rw [hzlen]; exact hplt)]
      exact not_lt.mpr (le_of_lt hD)
    rw [h2, h1]
    show (freshBuffers.outBuf.set (posOf s1) (glyphFor s1.N)).getD (posOf s1) ' ' =
      glyphFor s1.N
    exact getD_set_self _ _ _ _ (by rw [holen]; exact hplt)
  · by_cases h0 : 0 < s2.D
    · have h1 := plotStep_writes freshBuffers s2 hin2 (by rw [getD_freshZ]; exact h0)
      have h2 : plotStep (plotStep freshBuffers s2) s1 =
          ⟨(freshBuffers.z.set (posOf s2) s2.D).set (posOf s1) s1.D,
            (freshBuffers.outBuf.set (posOf s2) (glyphFor s2.N)).set (posOf s1)
              (glyphFor s1.N)⟩ := by
        rw [h1]
        apply plotStep_writes _ s1 hin
        show (freshBuffers.z.set (posOf s2) s2.D).getD (posOf s1) 0 < s1.D
        rw [hpp, getD_set_self _ _ _ _ (by rw [hzlen]; exact hplt)]
        exact hD
      rw [h2]
      show ((freshBuffers.outBuf.set (posOf s2) (glyphFor s2.N)).set (posOf s1)
        (glyphFor s1.N)).getD (posOf s1) ' ' = glyphFor s1.N
      exact getD_set_self _ _ _ _ (by rw [List.length_set, holen]; exact hplt)
    · have h1 : plotStep freshBuffers s2 = freshBuffers :=
        plotStep_skips _ _ (by rw [getD_freshZ]; exact h0)
      have h2 := plotStep_writes freshBuffers s1 hin (by rw [getD_freshZ]; exact hpos)
      rw [h1, h2]
      show (freshBuffers.outBuf.set (posOf s1) (glyphFor s1.N)).getD (posOf s1) ' ' =
        glyphFor s1.N
      exact getD_set_self _ _ _ _ (by rw [holen]; exact hplt)

/-- Concrete witness for claim C2: two samples at cell (0, 0) with depths 2
and 1; in both orders the glyph of the depth-2 sample survives. -/
theorem depth_test_nearest_wins_witness :
    inBounds ⟨0, 0, 2, 5⟩ ∧ (1:ℚ) < 2 ∧ (0:ℚ) < 2 ∧
    (plotStep (plotStep freshBuffers ⟨0, 0, 2, 5⟩) ⟨0, 0, 1, 7⟩).outBuf.getD
      (posOf ⟨0, 0, 2, 5⟩) ' ' = glyphFor 5 ∧
    (plotStep (plotStep freshBuffers ⟨0, 0, 1, 7⟩) ⟨0, 0, 2, 5⟩).outBuf.getD
      (posOf ⟨0, 0, 2, 5⟩) ' ' = glyphFor 5 :=
  ⟨by decide, by norm_num, by norm_num,
    (depth_test_nearest_wins ⟨0, 0, 2, 5⟩ ⟨0, 0, 1, 7⟩ freshBuffers rfl rfl
      (by decide) (by norm_num) (by norm_num)).2.1,
    (depth_test_nearest_wins ⟨0, 0, 2, 5⟩ ⟨0, 0, 1, 7⟩ freshBuffers rfl rfl
      (by decide) (by norm_num) (by norm_num)).2.2⟩

/-- Claim C5: the buffers are touched at pos = x + screenWidth*y only when
0 ≤ x < 40 and 0 ≤ y < 20 both hold (and then pos < 800, the length of both
buffers); any sample failing the bounds check — x = 40 or y = 20 included —
leaves both buffers untouched. -/
theorem bounds_checked (s : Sample) (b : Buffers) :
    (¬ inBounds s → plotStep b s = b) ∧
    (inBounds s → posOf s < 800) := by
  constructor
  · intro h
    rw [plotStep, if_neg h]
  · exact posOf_lt_of_inBounds s

/-- Concrete witness for claim C5: a sample with x = 40 (one past the last
column) is discarded without touching the buffers, and an in-bounds corner
sample yields a position inside the 800-cell buffers. -/
theorem bounds_checked_witness :
    (¬ inBounds ⟨40, 0, 1, 1⟩ ∧
      plotStep ⟨[5], ['a']⟩ ⟨40, 0, 1, 1⟩ = ⟨[5], ['a']⟩) ∧
    (inBounds ⟨39, 19, 1, 1⟩ ∧ posOf ⟨39, 19, 1, 1⟩ < 800) :=
  ⟨⟨by decide, (bounds_checked ⟨40, 0, 1, 1⟩ ⟨[5], ['a']⟩).1 (by decide)⟩,
   ⟨by decide, (bounds_checked ⟨39, 19, 1, 1⟩ ⟨[5], ['a']⟩).2 (by decide)⟩⟩

/-- Claim C6: the frame-start reset keeps the dimensions of both buffers,
sets every z-buffer cell to 0 and every character cell to the blank in one
pass, and every frame's rendering starts from exactly this reset state
before any sample is processed. -/
theorem reset_buffers_spec (b : Buffers) :
    ((resetBuffers b).z.length = b.z.length ∧
      (resetBuffers b).outBuf.length = b.outBuf.length) ∧
    (∀ i, i < b.z.length → ((resetBuffers b).z)[i]? = some 0) ∧
    (∀ i, i < b.outBuf.length → ((resetBuffers b).outBuf)[i]? = some ' ') ∧
    (∀ samples, frameRender b samples =
      samples.foldl plotStep (resetBuffers b)) := by
  refine ⟨⟨List.length_map _ _, List.length_map _ _⟩, ?_, ?_, fun _ => rfl⟩
  · intro i hi
    simp [resetBuffers, List.getElem?_replicate, hi]
  · intro i hi
    simp [resetBuffers, List.getElem?_replicate, hi]

/-- Concrete witness for claim C6 on a two-cell z-buffer and a one-cell
character buffer holding stale data. -/
theorem reset_buffers_spec_witness :
    (1 < 2 ∧ ((resetBuffers ⟨[3, 4], ['q']⟩).z)[1]? = some 0) ∧
    (0 < 1 ∧ ((resetBuffers ⟨[3, 4], ['q']⟩).outBuf)[0]? = some ' ') :=
  ⟨⟨by decide, (reset_buffers_spec ⟨[3, 4], ['q']⟩).2.1 1 (by decide)⟩,
   ⟨by decide, (reset_buffers_spec ⟨[3, 4], ['q']⟩).2.2.1 0 (by decide)⟩⟩

/-- Claim C7: the frame computation is a pure function of the sample stream
(itself determined by A, B and the fixed constants): whatever the buffers
held before the frame, two renderings over the same samples agree cell for
cell, so no state leaks from earlier frames. -/
theorem frame_no_hidden_state (samples : List Sample) (b1 b2 : Buffers)
    (hz : b1.z.length = b2.z.length)
    (hout : b1.outBuf.length = b2.outBuf.length) :
    frameRender b1 samples = frameRender b2 samples := by
  have hreset : resetBuffers b1 = resetBuffers b2 := by
    simp [resetBuffers, List.map_const', hz, hout]
  rw [frameRender, frameRender, hreset]

/-- Concrete witness for claim C7: two buffers with different stale contents
but equal dimensions render one sample identically. -/
theorem frame_no_hidden_state_witness :
    ((Buffers.z ⟨[1], ['a']⟩).length = (Buffers.z ⟨[2], ['b']⟩).length ∧
      (Buffers.outBuf ⟨[1], ['a']⟩).length =
        (Buffers.outBuf ⟨[2], ['b']⟩).length) ∧
    frameRender ⟨[1], ['a']⟩ [⟨5, 5, 1, 3⟩] =
      frameRender ⟨[2], ['b']⟩ [⟨5, 5, 1, 3⟩] :=
  ⟨⟨by decide, by decide⟩,
   frame_no_hidden_state [⟨5, 5, 1, 3⟩] ⟨[1], ['a']⟩ ⟨[2], ['b']⟩
     (by decide) (by decide)⟩

/-! ## The frame invariant: blank glyph exactly where depth is zero -/

/-- A well-formed cell: either untouched (blank glyph, zero depth) or written
(a palette glyph and a strictly positive depth). -/
def goodCell (b : Buffers) (p : ℕ) : Prop :=
  (b.outBuf[p]? = some ' ' ∧ b.z[p]? = some 0) ∨
  (∃ c, b.outBuf[p]? = some c ∧ c ∈ luminanceChars ∧
    ∃ d, b.z[p]? = some d ∧ 0 < d)

/-- The invariant carried through a frame: both buffers have 800 cells and
every cell is well formed. -/
def frameInv (b : Buffers) : Prop :=
  b.z.length = 800 ∧ b.outBuf.length = 800 ∧ ∀ p, p < 800 → goodCell b p

/-- Every glyph the rasterizer writes comes from the luminance palette. -/
theorem glyphFor_mem (N : ℤ) : glyphFor N ∈ luminanceChars := by
  unfold glyphFor
  split_ifs with h
  · have h1 := Int.emod_nonneg N (by norm_num : (12:ℤ) ≠ 0)
    have h2 := Int.emod_lt_of_pos N (by norm_num : (0:ℤ) < 12)
    have htm : N.tmod 12 = N % 12 := Int.tmod_eq_emod (le_of_lt h) (by norm_num)
    have h12 : (N.tmod 12).toNat < 12 := by omega
    have hlen : (N.tmod 12).toNat < luminanceChars.length := by
      rw [show luminanceChars.length = 12 from rfl]
      exact h12
    rw [List.getD_eq_getElem?_getD, List.getElem?_eq_getElem hlen]
    exact List.getElem_mem hlen
  · decide

/-- The blank glyph is not in the luminance palette. -/
theorem blank_not_in_palette : ' ' ∉ luminanceChars := by decide

/-- Resetting 800-cell buffers establishes the frame invariant. -/
theorem frameInv_reset (b : Buffers) (hz : b.z.length = 800)
    (ho : b.outBuf.length = 800) : frameInv (resetBuffers b) := by
  refine ⟨?_, ?_, ?_⟩
  · show (b.z.map _).length = 800
    rw [List.length_map]
    exact hz
  · show (b.outBuf.map _).length = 800
    rw [List.length_map]
    exact ho
  · intro p hp
    left
    constructor
    · show (b.outBuf.map fun _ => ' ')[p]? = some ' '
      rw [List.map_const', List.getElem?_replicate, if_pos (by rw [ho]; exact hp)]
    · show (b.z.map fun _ => (0:ℚ))[p]? = some 0
      rw [List.map_const', List.getElem?_replicate, if_pos (by rw [hz]; exact hp)]

/-- Rasterizing one strictly-positive-depth sample preserves the frame
invariant. -/
theorem frameInv_step (b : Buffers) (s : Sample) (hD : 0 < s.D)
    (h : frameInv b) : frameInv (plotStep b s) := by
  obtain ⟨hz, ho, hcells⟩ := h
  unfold plotStep
  split_ifs with h1 h2
  · refine ⟨?_, ?_, ?_⟩
    · show (b.z.set (posOf s) s.D).length = 800
      rw [List.length_set]
      exact hz
    · show (b.outBuf.set (posOf s) (glyphFor s.N)).length = 800
      rw [List.length_set]
      exact ho
    · intro p hp
      by_cases hpe : posOf s = p
      · subst hpe
        right
        refine ⟨glyphFor s.N, ?_, glyphFor_mem s.N, s.D, ?_, hD⟩
        · show (b.outBuf.set (posOf s) (glyphFor s.N))[posOf s]? =
            some (glyphFor s.N)
          exact List.getElem?_set_self (by rw [ho]; exact hp)
        · show (b.z.set (posOf s) s.D)[posOf s]? = some s.D
          exact List.getElem?_set_self (by rw [hz]; exact hp)
      · have hc := hcells p hp
        unfold goodCell at hc ⊢
        rw [show (Buffers.mk (b.z.set (posOf s) s.D)
            (b.outBuf.set (posOf s) (glyphFor s.N))).z = b.z.set (posOf s) s.D
            from rfl,
          show (Buffers.mk (b.z.set (posOf s) s.D)
            (b.outBuf.set (posOf s) (glyphFor s.N))).outBuf =
            b.outBuf.set (posOf s) (glyphFor s.N) from rfl,
          List.getElem?_set_ne hpe, List.getElem?_set_ne hpe]
        exact hc
  · exact ⟨hz, ho, hcells⟩
  · exact ⟨hz, ho, hcells⟩

/-- Folding the rasterizer over samples of strictly positive depth preserves
the frame invariant. -/
theorem frameInv_fold (l : List Sample) (b : Buffers)
    (hD : ∀ s ∈ l, 0 < s.D) (h : frameInv b) :
    frameInv (l.foldl plotStep b) := by
  induction l generalizing b with
  | nil => exact h
  | cons s t ih =>
    rw [List.foldl_cons]
    exact ih (plotStep b s) (fun u hu => hD u (List.mem_cons_of_mem s hu))
      (frameInv_step b s (hD s (List.mem_cons_self s t)) h)

/-- Claim C10: after a frame over samples of strictly positive depth, a cell
shows the blank glyph exactly when its stored depth is 0; every written cell
holds a palette glyph and a strictly positive depth. -/
theorem blank_iff_depth_zero (samples : List Sample) (b : Buffers)
    (hz : b.z.length = 800) (ho : b.outBuf.length = 800)
    (hD : ∀ s ∈ samples, 0 < s.D) (p : ℕ) (hp : p < 800) :
    goodCell (frameRender b samples) p ∧
    ((frameRender b samples).outBuf[p]? = some ' ' ↔
      (frameRender b samples).z[p]? = some 0) := by
  have hinv : frameInv (frameRender b samples) :=
    frameInv_fold samples (resetBuffers b) hD (frameInv_reset b hz ho)
  have hcell := hinv.2.2 p hp
  refine ⟨hcell, ?_⟩
  rcases hcell with ⟨h1, h2⟩ | ⟨c, hc, hcm, d, hd, hdpos⟩
  · rw [h1, h2]
    simp
  · rw [hc, hd]
    constructor
    · intro hcc
      exact absurd ((Option.some_inj.mp hcc) ▸ hcm) blank_not_in_palette
    · intro hdd
      have hd0 : d = 0 := Option.some_inj.mp hdd
      rw [hd0] at hdpos
      exact absurd hdpos (lt_irrefl 0)

/-- Concrete witness for claim C10: one in-bounds sample of depth 1 rendered
into fresh 800-cell buffers; cell 0 is classified and the equivalence holds
there. -/
theorem blank_iff_depth_zero_witness :
    freshBuffers.z.length = 800 ∧ freshBuffers.outBuf.length = 800 ∧
    (∀ s ∈ [(⟨0, 0, 1, 3⟩ : Sample)], 0 < s.D) ∧
    (goodCell (frameRender freshBuffers [⟨0, 0, 1, 3⟩]) 0 ∧
      ((frameRender freshBuffers [⟨0, 0, 1, 3⟩]).outBuf[0]? = some ' ' ↔
        (frameRender freshBuffers [⟨0, 0, 1, 3⟩]).z[0]? = some 0)) :=
  ⟨List.length_replicate 800 0, List.length_replicate 800 ' ',
    by decide,
    blank_iff_depth_zero [⟨0, 0, 1, 3⟩] freshBuffers
      (List.length_replicate 800 0) (List.length_replicate 800 ' ')
      (by decide) 0 (by norm_num)⟩

/-! ## Lemmas about products of bounded reals -/

/-- A product of two factors in [-1, 1] is at least -1. -/
theorem neg_one_le_mul_of_bounds {a b : ℝ} (ha : -1 ≤ a) (ha' : a ≤ 1)
    (hb : -1 ≤ b) (hb' : b ≤ 1) : -1 ≤ a * b := by
  nlinarith

/-- Claim C1: for all rotation and sweep angles the perspective denominator
sinPhi*h*sinA + sinTheta*cosA + 5 (h = cosTheta + 2) is strictly positive
(indeed at least 1), hence D = 1/denom is strictly positive. -/
theorem denom_pos_and_D_pos (A θ φ : ℝ) :
    0 < denom A θ φ ∧ 0 < Dval A θ φ := by
  have hs1 := Real.neg_one_le_sin φ
  have hs1' := Real.sin_le_one φ
  have hs2 := Real.neg_one_le_sin A
  have hs2' := Real.sin_le_one A
  have hs3 := Real.neg_one_le_sin θ
  have hs3' := Real.sin_le_one θ
  have hc := Real.neg_one_le_cos θ
  have hc' := Real.cos_le_one θ
  have hcA := Real.neg_one_le_cos A
  have hcA' := Real.cos_le_one A
  have hm1 : -1 ≤ Real.sin φ * Real.sin A :=
    neg_one_le_mul_of_bounds hs1 hs1' hs2 hs2'
  have hm2 : -1 ≤ Real.sin θ * Real.cos A :=
    neg_one_le_mul_of_bounds hs3 hs3' hcA hcA'
  have hh : (0:ℝ) ≤ Real.cos θ + 2 := by linarith
  have hkey : 0 ≤ (1 + Real.sin φ * Real.sin A) * (Real.cos θ + 2) :=
    mul_nonneg (by linarith) hh
  have hden : 0 < denom A θ φ := by
    unfold denom
    nlinarith
  exact ⟨hden, one_div_pos.mpr hden⟩

/-! ## The luminance integer conversion (claim C4) -/

/-- Bounds on the square root of two used by the counterexample. -/
theorem sqrt_two_bounds : (5:ℝ)/4 < Real.sqrt 2 ∧ Real.sqrt 2 < 3/2 := by
  have h := Real.sq_sqrt (by norm_num : (0:ℝ) ≤ 2)
  have hnn := Real.sqrt_nonneg 2
  constructor <;> nlinarith

/-- The luminance expression at A = B = θ = 0, φ = π/4. -/
theorem lumExpr_at_quarter_pi :
    lumExpr 0 0 0 (Real.pi/4) = -4 * Real.sqrt 2 := by
  unfold lumExpr
  rw [Real.sin_zero, Real.cos_zero, Real.sin_pi_div_four, Real.cos_pi_div_four]
  ring

/-- Counterexample to claim C4: at A = B = θ = 0 and φ = π/4 the luminance
expression equals -4√2 ≈ -5.657; the Go int conversion yields -5, the floor
is -6, so the conversion does not round toward negative infinity. -/
theorem luminance_not_floor_cex :
    Nval 0 0 0 (Real.pi/4) = -5 ∧ ⌊lumExpr 0 0 0 (Real.pi/4)⌋ = -6 ∧
    Nval 0 0 0 (Real.pi/4) ≠ ⌊lumExpr 0 0 0 (Real.pi/4)⌋ := by
  obtain ⟨hlo, hhi⟩ := sqrt_two_bounds
  have hneg : lumExpr 0 0 0 (Real.pi/4) < 0 := by
    rw [lumExpr_at_quarter_pi]
    nlinarith
  have hN : Nval 0 0 0 (Real.pi/4) = -5 := by
    rw [Nval, truncToZero, if_neg (not_le.mpr hneg), lumExpr_at_quarter_pi]
    have hfloor : ⌊-(-4 * Real.sqrt 2)⌋ = 5 := by
      rw [Int.floor_eq_iff]
      constructor
      · push_cast
        nlinarith
      · push_cast
        nlinarith
    rw [hfloor]
  have hF : ⌊lumExpr 0 0 0 (Real.pi/4)⌋ = -6 := by
    rw [lumExpr_at_quarter_pi, Int.floor_eq_iff]
    constructor
    · push_cast
      nlinarith
    · push_cast
      nlinarith
  refine ⟨hN, hF, ?_⟩
  rw [hN, hF]
  decide

/-- Claim C4 amended: N is the Go int conversion of the luminance expression,
which truncates toward zero: N equals the floor of the expression when the
expression is nonnegative (in particular whenever N > 0 matters for
rendering), and equals the ceiling when the expression is negative; for
negative non-integral values it therefore exceeds the floor by one. -/
theorem luminance_truncates (A B θ φ : ℝ) :
    (0 ≤ lumExpr A B θ φ → Nval A B θ φ = ⌊lumExpr A B θ φ⌋) ∧
    (lumExpr A B θ φ < 0 → Nval A B θ φ = ⌈lumExpr A B θ φ⌉) := by
  constructor
  · intro h
    rw [Nval, truncToZero, if_pos h]
  · intro h
    rw [Nval, truncToZero, if_neg (not_le.mpr h), Int.floor_neg, neg_neg]

/-- Concrete witness for the amended claim C4 at the all-zero angles, where
the luminance expression is 0 and N is its floor. -/
theorem luminance_truncates_witness :
    0 ≤ lumExpr 0 0 0 0 ∧ Nval 0 0 0 0 = ⌊lumExpr 0 0 0 0⌋ := by
  have h0 : lumExpr 0 0 0 0 = 0 := by
    unfold lumExpr
    rw [Real.sin_zero, Real.cos_zero]
    ring
  exact ⟨by rw [h0], (luminance_truncates 0 0 0 0).1 (by rw [h0])⟩

/-- Claim C8: after k frames the rotation angles are exactly k times their
per-frame increments (hence in particular equal modulo 2π); they are never
reset. -/
theorem rotation_angles_after_k (k : ℕ) :
    (loopIter k).A = 7/100 * k ∧ (loopIter k).B = 3/100 * k := by
  induction k with
  | zero => simp [loopIter, initState]
  | succ n ih =>
    obtain ⟨ihA, ihB⟩ := ih
    constructor
    · show (loopStep (loopIter n)).A = 7/100 * (n + 1 : ℕ)
      rw [loopStep, ihA]
      push_cast
      ring
    · show (loopStep (loopIter n)).B = 3/100 * (n + 1 : ℕ)
      rw [loopStep, ihB]
      push_cast
      ring

/-- Counterexample to claim C9: the color index does not advance between
successive frames; after one frame it equals its value at frame zero. -/
theorem color_index_frame_one_eq_frame_zero :
    (loopIter 1).colorIdx = (loopIter 0).colorIdx := rfl

/-- Claim C9 amended: the color index never changes: at every frame it is 0,
so every frame is printed with colors[0], the red escape sequence; no
color cycling takes place in this program. -/
theorem color_index_constant (k : ℕ) :
    (loopIter k).colorIdx = 0 ∧
      (colors.getD (loopIter k).colorIdx "") = "\x1b[31m" := by
  induction k with
  | zero => exact ⟨rfl, rfl⟩
  | succ n ih =>
    have h : (loopIter (n + 1)).colorIdx = (loopIter n).colorIdx := rfl
    rw [h, ih.1]
    exact ⟨rfl, rfl⟩

end Donut
